import Mathlib

/-!
Verification of the Sisepai card-game simulator (`sisepai.py` and `game.py`)
against its natural-language specification.

The Python classes are shallowly embedded as Lean structures and pure
functions.  Mutable object state is passed explicitly: a method that mutates
`self` becomes a function returning the updated value.  Python strings stay
`String`; Python `int` scores become `Int`; machine randomness
(`np.random.choice`, `np.random.shuffle`) is modelled by explicit oracle
parameters (an index stream `Nat → Nat` with a position counter, and a
shuffle function `List Card → List Card`).  Fallible code paths — places
where the Python raises an exception — return `Option`.
-/

namespace SSP

/-- Colour name used by the Python sources. -/
def red : String := "red"

/-- Colour name used by the Python sources. -/
def yellow : String := "yellow"

/-- Colour name used by the Python sources. -/
def white : String := "white"

/-- Colour name used by the Python sources. -/
def green : String := "green"

/-- Suit name used by the Python sources. -/
def kuin : String := "kuin"

/-- Suit name used by the Python sources. -/
def tse : String := "tse"

/-- Suit name used by the Python sources. -/
def xiong : String := "xiong"

/-- Suit name used by the Python sources. -/
def kee : String := "kee"

/-- Suit name used by the Python sources. -/
def mah : String := "mah"

/-- Suit name used by the Python sources. -/
def pau : String := "pau"

/-- Suit name used by the Python sources. -/
def chut : String := "chut"

/-- Sentinel value stored by `Card.__init__` for an invalid construction. -/
def invalidName : String := "invalid"

/-- `Card.validSuits` from sisepai.py. -/
def validSuits : List String := [kuin, tse, xiong, kee, mah, pau, chut]

/-- `Card.validColours` from sisepai.py. -/
def validColours : List String := [red, yellow, white, green]

/-- The `Card` class of sisepai.py: colour and suit strings, the derived
rank, and the two mutable flags `active` and `locked`. -/
structure Card where
  colour : String
  suit : String
  rank : Nat
  active : Bool
  locked : Bool
deriving DecidableEq

/-- `Card.calculate_rank`: `4*suitIndex + 4 - (4 - colourIndex)`.  For the
valid colours the inner subtraction never truncates, so `Nat` subtraction
agrees with Python's `int` arithmetic. -/
def calculate_rank (colour suit : String) : Nat :=
  4 * validSuits.indexOf suit + 4 - (4 - validColours.indexOf colour)

/-- `Card.__init__`: a valid (colour, suit) pair yields a real card; any
other input silently yields the `invalid` sentinel with rank 100. -/
def Card.init (colour suit : String) (active : Bool) : Card :=
  if colour ∈ validColours ∧ suit ∈ validSuits then
    { colour := colour, suit := suit, rank := calculate_rank colour suit,
      active := active, locked := false }
  else
    { colour := invalidName, suit := invalidName, rank := 100,
      active := active, locked := false }

/-- `Card()` with no arguments constructs the invalid sentinel; it is the
natural `default` card (used only where Python could not crash). -/
instance : Inhabited Card := ⟨Card.init invalidName invalidName false⟩

/-- `cards_same_colour`: all cards share the first card's colour.
Python raises on `[]`; that call never happens, the empty case is vacuous. -/
def cards_same_colour (cards : List Card) : Bool :=
  cards.all (fun c => c.colour == (cards.headD default).colour)

/-- `cards_same_suit`: all cards share the first card's suit. -/
def cards_same_suit (cards : List Card) : Bool :=
  cards.all (fun c => c.suit == (cards.headD default).suit)

/-- Helper for `cards_unique_colours`: no colour occurs at two distinct
positions.  Python compares card objects by identity (`i == j: continue`),
which is exactly position-wise distinctness of the colour list. -/
def coloursDistinct : List String → Bool
  | [] => true
  | c :: rest => rest.all (fun d => d != c) && coloursDistinct rest

/-- `cards_unique_colours`: each card has a colour distinct from every
other card in the list. -/
def cards_unique_colours (cards : List Card) : Bool :=
  coloursDistinct (cards.map (fun c => c.colour))

/-- `cards_all_suit`: all cards have the given suit. -/
def cards_all_suit (cards : List Card) (suit : String) : Bool :=
  cards.all (fun c => c.suit == suit)

/-- `cards_not_locked` over explicit lock flags (see `EvalSt` below):
all the given indices are unlocked.  Out-of-range indices default to
`true` (locked); they never occur. -/
def idxs_not_locked (locked : List Bool) (idxs : List Nat) : Bool :=
  idxs.all (fun i => locked.getD i true == false)

/-- `contains_active_card`: some card has its `active` flag set. -/
def contains_active_card (cards : List Card) : Bool :=
  cards.any (fun c => c.active)

/-- The multiset of suit names of a list of cards.  Python compares
`sorted([i.suit for i in cards]) == sorted(target)`; equality of the sorted
lists of strings is exactly equality of the multisets. -/
def suitsMultiset (cards : List Card) : Multiset String :=
  Multiset.ofList (cards.map (fun c => c.suit))

/-- `Set.evaluate_score` of sisepai.py, as a function of the card list and
the derived booleans the `Set` constructor stores on `self`.  Returns the
score together with the `invalid` flag.  Python's early `return`
statements linearize into an `if`-chain; each branch condition is the
conjunction of the conditions guarding the corresponding `return`. -/
def evaluate_score (cards : List Card)
    (melded same_colour same_suit unique_colours : Bool) : Int × Bool :=
  let hs := (cards.headD default).suit
  if same_suit = true ∧ hs ≠ kuin ∧ same_colour = true ∧ cards.length = 4 then
    (if melded then 6 else 8, false)
  else if same_suit = true ∧ hs ≠ kuin ∧ same_colour = true ∧ cards.length = 3 then
    (if melded then 1 else 3, false)
  else if same_suit = true ∧ hs ≠ kuin ∧ same_colour = true ∧ cards.length = 2 then
    (0, false)
  else if same_suit = true ∧ hs ≠ kuin ∧ unique_colours = true ∧ hs = chut
      ∧ cards.length = 4 then
    (4, false)
  else if same_suit = true ∧ hs ≠ kuin ∧ unique_colours = true ∧ hs = chut
      ∧ cards.length = 3 then
    (1, false)
  else if same_colour = true ∧ suitsMultiset cards = Multiset.ofList [kuin, tse, xiong] then
    (2, false)
  else if same_colour = true ∧ suitsMultiset cards = Multiset.ofList [kee, mah, pau] then
    (1, false)
  else if hs = kuin ∧ cards.length = 1 then
    (1, false)
  else
    (-1, true)

/-- The `Set` class of sisepai.py (named `CardSet` here because `Set` is
taken by Mathlib): the cards plus the derived fields the constructor
computes. -/
structure CardSet where
  cards : List Card
  melded : Bool
  invalid : Bool
  same_colour : Bool
  same_suit : Bool
  unique_colours : Bool
  score : Int
deriving DecidableEq

/-- `Set.__init__`: computes every derived field from the card list. -/
def mkSet (cards : List Card) : CardSet :=
  let melded := contains_active_card cards
  let sc := cards_same_colour cards
  let ss := cards_same_suit cards
  let uc := cards_unique_colours cards
  let r := evaluate_score cards melded sc ss uc
  { cards := cards, melded := melded, invalid := r.2, same_colour := sc,
    same_suit := ss, unique_colours := uc, score := r.1 }

instance : Inhabited CardSet := ⟨mkSet []⟩

/-- `is_identical_set`: same suit and same colour throughout. -/
def is_identical_set (s : CardSet) : Bool :=
  cards_same_suit s.cards && cards_same_colour s.cards

/-- `is_four_colour_set`: four chut cards of pairwise distinct colours. -/
def is_four_colour_set (s : CardSet) : Bool :=
  cards_same_suit s.cards && cards_unique_colours s.cards
    && (s.cards.length == 4) && ((s.cards.headD default).suit == chut)

/-- `hand_contains_suit`: at least one card of the given suit. -/
def hand_contains_suit (hand : List Card) (suit : String) : Bool :=
  hand.any (fun c => c.suit == suit)

/-- `exists_nks`: some set of more than one card exists (a non-kuin set
that may be broken up for a discard). -/
def exists_nks (hand_sets : List CardSet) : Bool :=
  hand_sets.any (fun s => 1 < s.cards.length)

/-- `sort_cards` with the default `by='suit'` argument: a stable sort by
`rank`.  Python's `list.sort` is a stable sort; every stable sort by the
same key computes the same list, so Mathlib's insertion sort (which is
stable) is an exact model. -/
def sort_cards (cards : List Card) : List Card :=
  List.insertionSort (fun a b => a.rank ≤ b.rank) cards

end SSP

namespace SSP

/-- The `Deck` class: its size parameter and its (mutable) card list. -/
structure Deck where
  ndecks : Nat
  cards : List Card
deriving DecidableEq

/-- `Deck.populate_deck`: for every suit, for every colour, `4*ndecks`
copies of that card, in source iteration order. -/
def populate_deck (ndecks : Nat) : List Card :=
  validSuits.flatMap (fun i =>
    validColours.flatMap (fun j =>
      List.replicate (4 * ndecks) (Card.init j i false)))

/-- `Deck.__init__`; `np.random.shuffle` is the oracle `shuf`. -/
def Deck.init (shuf : List Card → List Card) (ndecks : Nat)
    (shuffle : Bool) : Deck :=
  { ndecks := ndecks,
    cards := if shuffle then shuf (populate_deck ndecks) else populate_deck ndecks }

/-- `Deck.draw_active_card` (with its default `shuffle=False`): pop the
last card, mark it active.  Returns `none` and leaves the deck unchanged
when the deck is empty. -/
def draw_active_card (d : Deck) : Option Card × Deck :=
  if d.cards.length < 1 then (none, d)
  else
    match d.cards.getLast? with
    | none => (none, d)
    | some c => (some { c with active := true }, { d with cards := d.cards.dropLast })

/-- The `for i in range(ncards): dcards.append(self.cards.pop())` loop of
`Deck.draw_cards`.  The empty-list case is unreachable under the guard. -/
def popLoop : Nat → List Card → List Card → List Card × List Card
  | 0, acc, cs => (acc, cs)
  | n + 1, acc, cs =>
    match cs.getLast? with
    | none => (acc, cs)
    | some c => popLoop n (acc ++ [c]) cs.dropLast

/-- `Deck.draw_cards` (default `shuffle=False`): `None` unless strictly
more than `ncards` cards remain (`len(self.cards)-ncards < 1` in Python
`int` arithmetic), else the popped cards. -/
def draw_cards (d : Deck) (ncards : Nat) : Option (List Card) × Deck :=
  if (d.cards.length : Int) - ncards < 1 then (none, d)
  else
    let r := popLoop ncards [] d.cards
    (some r.1, { d with cards := r.2 })

/-- `construct_deck` of game.py: deck size from the player count.
`math.floor((nplayers+1)/2)` on Python floats equals `Nat` division
`(nplayers+1)/2` here. -/
def construct_deck (shuf : List Card → List Card) (nplayers : Nat) : Deck :=
  if nplayers < 2 then Deck.init shuf 1 true
  else if nplayers ≤ 4 then Deck.init shuf 2 true
  else Deck.init shuf ((nplayers + 1) / 2) true

/-- State threaded through `evaluate_hand`'s tiers: the per-index lock
flags (Python stores these on the card objects of the sorted working
list; an index stands for an object identity) and the committed sets,
each recorded as its list of indices into the sorted working list. -/
structure EvalSt where
  locked : List Bool
  found : List (List Nat)
deriving DecidableEq

/-- Set the lock flag at each of the given indices (`c.lock()`). -/
def markLocked (idxs : List Nat) : List Bool → Nat → List Bool
  | [], _ => []
  | b :: rest, i => (if i ∈ idxs then true else b) :: markLocked idxs rest (i + 1)

/-- Commit a set: append its index list to `found_sets` and lock its cards. -/
def commitSet (st : EvalSt) (idxs : List Nat) : EvalSt :=
  { locked := markLocked idxs st.locked 0, found := st.found ++ [idxs] }

/-- The cards at the given indices of the sorted working list. -/
def idxCards (cs : List Card) (idxs : List Nat) : List Card :=
  idxs.map (fun i => cs.getD i default)

/-- Tier 1 of `evaluate_hand`: the 4-card identical-set window scan
(`while i <= len(cards)-4`), advancing by 4 on a commit (`i += 3` then
`i += 1`) and by 1 otherwise.  `fuel` only bounds the recursion; with
`fuel = len + 1` it never runs out. -/
def tier1 (cs : List Card) : Nat → Nat → EvalSt → EvalSt
  | 0, _, st => st
  | fuel + 1, i, st =>
    if i + 4 ≤ cs.length then
      let idxs := [i, i + 1, i + 2, i + 3]
      let tset := mkSet (idxCards cs idxs)
      if (([8, 6] : List Int).contains tset.score) && idxs_not_locked st.locked idxs then
        tier1 cs fuel (i + 4) (commitSet st idxs)
      else tier1 cs fuel (i + 1) st
    else st

/-- All `i < j < k < l < n` in the lexicographic order of the source's
nested `for` loops. -/
def quadIdxs (n : Nat) : List (List Nat) :=
  (List.range n).flatMap (fun i =>
    (List.range' (i + 1) (n - (i + 1))).flatMap (fun j =>
      (List.range' (j + 1) (n - (j + 1))).flatMap (fun k =>
        (List.range' (k + 1) (n - (k + 1))).map (fun l => [i, j, k, l]))))

/-- One candidate quadruple of tier 2 (4-card multicolour chut sets).  The
source filters `cards[i].suit not in valid_multicolour_suits` before the
inner loops; as the filter does not depend on the mutable state this is
the same as testing it per quadruple. -/
def tier2step (cs : List Card) (st : EvalSt) (idxs : List Nat) : EvalSt :=
  if (cs.getD (idxs.headD 0) default).suit ∈ [chut] then
    let tset := mkSet (idxCards cs idxs)
    if (tset.score == 4) && idxs_not_locked st.locked idxs then commitSet st idxs
    else st
  else st

/-- Tier 3: the 3-card identical-set window scan, restricted to windows
that are already same-suit and same-colour, advancing by 3 on a commit. -/
def tier3 (cs : List Card) : Nat → Nat → EvalSt → EvalSt
  | 0, _, st => st
  | fuel + 1, i, st =>
    if i + 3 ≤ cs.length then
      let idxs := [i, i + 1, i + 2]
      let tcards := idxCards cs idxs
      if cards_same_suit tcards && cards_same_colour tcards then
        let tset := mkSet tcards
        if (([3, 1] : List Int).contains tset.score) && idxs_not_locked st.locked idxs then
          tier3 cs fuel (i + 3) (commitSet st idxs)
        else tier3 cs fuel (i + 1) st
      else tier3 cs fuel (i + 1) st
    else st

/-- All `i < j < k < n` in source loop order. -/
def tripleIdxs (n : Nat) : List (List Nat) :=
  (List.range n).flatMap (fun i =>
    (List.range' (i + 1) (n - (i + 1))).flatMap (fun j =>
      (List.range' (j + 1) (n - (j + 1))).map (fun k => [i, j, k])))

/-- One candidate triple of tier 4 (consecutive and multicolour sets). -/
def tier4step (cs : List Card) (st : EvalSt) (idxs : List Nat) : EvalSt :=
  let tset := mkSet (idxCards cs idxs)
  if (([2, 1] : List Int).contains tset.score) && idxs_not_locked st.locked idxs then
    commitSet st idxs
  else st

/-- One step of tier 5 (standalone kuin singletons). -/
def tier5step (cs : List Card) (st : EvalSt) (i : Nat) : EvalSt :=
  if ((cs.getD i default).suit == kuin) && idxs_not_locked st.locked [i] then
    commitSet st [i]
  else st

/-- Tier 6: the pair window scan; `i` advances by 1 whether or not the
window commits. -/
def tier6 (cs : List Card) : Nat → Nat → EvalSt → EvalSt
  | 0, _, st => st
  | fuel + 1, i, st =>
    if i + 2 ≤ cs.length then
      let idxs := [i, i + 1]
      let tset := mkSet (idxCards cs idxs)
      if (tset.score == 0) && idxs_not_locked st.locked idxs then
        tier6 cs fuel (i + 1) (commitSet st idxs)
      else tier6 cs fuel (i + 1) st
    else st

/-- The final lock state of `evaluate_hand` on the sorted working list. -/
def evalFinalSt (cs : List Card) : EvalSt :=
  let st0 : EvalSt := { locked := cs.map (fun c => c.locked), found := [] }
  let st1 := tier1 cs (cs.length + 1) 0 st0
  let st2 := (quadIdxs cs.length).foldl (tier2step cs) st1
  let st3 := tier3 cs (cs.length + 1) 0 st2
  let st4 := (tripleIdxs cs.length).foldl (tier4step cs) st3
  let st5 := (List.range cs.length).foldl (tier5step cs) st4
  tier6 cs (cs.length + 1) 0 st5

/-- The result record of `evaluate_hand` (with `return_sets=True`).
`final` is the state of the input list when the function returns: Python
sorts the caller's list in place and clears every lock flag before
returning.  `foundIdx` records, for each found set, the indices (object
identities) of its cards in the sorted working list. -/
structure EvalResult where
  found_sets : List CardSet
  hand_score : Int
  lang_pai : List Card
  final : List Card
  foundIdx : List (List Nat)
  looseIdx : List Nat
deriving DecidableEq

/-- `evaluate_hand` of sisepai.py. -/
def evaluate_hand (hand_cards : List Card) : EvalResult :=
  let cs := sort_cards hand_cards
  let st := evalFinalSt cs
  let found_sets := st.found.map (fun idxs => mkSet (idxCards cs idxs))
  let looseIdx := (List.range cs.length).filter
    (fun i => st.locked.getD i true == false)
  { found_sets := found_sets,
    hand_score := (found_sets.map (fun s => s.score)).sum,
    lang_pai := looseIdx.map (fun i => cs.getD i default),
    final := cs.map (fun c => { c with locked := false }),
    foundIdx := st.found,
    looseIdx := looseIdx }

end SSP

namespace SSP

/-- The priority-ordered scoring rule table of spec §4.1, written directly
from the specification's words: the first matching row wins, a composition
matching no row scores -1. -/
def tableScore (cards : List Card) : Int :=
  let hs := (cards.headD default).suit
  let melded := contains_active_card cards
  if cards_same_suit cards = true ∧ hs ≠ kuin ∧ cards_same_colour cards = true
      ∧ cards.length = 4 then
    (if melded then 6 else 8)
  else if cards_same_suit cards = true ∧ hs ≠ kuin ∧ cards_same_colour cards = true
      ∧ cards.length = 3 then
    (if melded then 1 else 3)
  else if cards_same_suit cards = true ∧ hs ≠ kuin ∧ cards_same_colour cards = true
      ∧ cards.length = 2 then
    0
  else if cards_same_suit cards = true ∧ hs = chut ∧ cards_unique_colours cards = true
      ∧ cards.length = 4 then
    4
  else if cards_same_suit cards = true ∧ hs = chut ∧ cards_unique_colours cards = true
      ∧ cards.length = 3 then
    1
  else if cards.length = 3 ∧ cards_same_colour cards = true
      ∧ suitsMultiset cards = Multiset.ofList [kuin, tse, xiong] then
    2
  else if cards.length = 3 ∧ cards_same_colour cards = true
      ∧ suitsMultiset cards = Multiset.ofList [kee, mah, pau] then
    1
  else if (cards.headD default).suit = kuin ∧ cards.length = 1 then
    1
  else -1

/-- A suit multiset of three named suits forces a three-card list. -/
theorem suitsMultiset_len3 (cards : List Card) (a b c : String)
    (h : suitsMultiset cards = Multiset.ofList [a, b, c]) : cards.length = 3 := by
  have h2 := congrArg Multiset.card h
  simpa [suitsMultiset, Multiset.coe_card] using h2

/-- The suit strings chut and kuin differ. -/
theorem chut_ne_kuin : chut ≠ kuin := by decide

/-- The score computed by `Set.evaluate_score` agrees with the first
matching row of the spec's rule table, for lists of any length. -/
theorem score_eq_table (cards : List Card) :
    (mkSet cards).score = tableScore cards := by
  have hk1 : suitsMultiset cards = Multiset.ofList [kuin, tse, xiong] → cards.length = 3 :=
    fun h => suitsMultiset_len3 cards _ _ _ h
  have hk2 : suitsMultiset cards = Multiset.ofList [kee, mah, pau] → cards.length = 3 :=
    fun h => suitsMultiset_len3 cards _ _ _ h
  simp only [mkSet, evaluate_score, tableScore, apply_ite (Prod.fst (α := Int) (β := Bool))]
  refine if_congr Iff.rfl rfl ?_
  refine if_congr Iff.rfl rfl ?_
  refine if_congr Iff.rfl rfl ?_
  refine if_congr ⟨fun h => ⟨h.1, h.2.2.2.1, h.2.2.1, h.2.2.2.2⟩,
    fun h => ⟨h.1, h.2.1 ▸ chut_ne_kuin, h.2.2.1, h.2.1, h.2.2.2⟩⟩ rfl ?_
  refine if_congr ⟨fun h => ⟨h.1, h.2.2.2.1, h.2.2.1, h.2.2.2.2⟩,
    fun h => ⟨h.1, h.2.1 ▸ chut_ne_kuin, h.2.2.1, h.2.1, h.2.2.2⟩⟩ rfl ?_
  refine if_congr ⟨fun h => ⟨hk1 h.2, h.1, h.2⟩, fun h => ⟨h.2.1, h.2.2⟩⟩ rfl ?_
  refine if_congr ⟨fun h => ⟨hk2 h.2, h.1, h.2⟩, fun h => ⟨h.2.1, h.2.2⟩⟩ rfl ?_
  exact if_congr Iff.rfl rfl rfl

/-- `Set.__init__` marks a set invalid exactly when its score is -1. -/
theorem invalid_iff_score_neg_one (cards : List Card) :
    ((mkSet cards).invalid = true ↔ (mkSet cards).score = -1) := by
  simp only [mkSet, evaluate_score]
  split_ifs <;> simp

/-- C3.  Set-scoring table exactness: for every list of 1 to 4 cards,
`Set.evaluate_score` returns exactly the score of the first matching row of
the priority-ordered rule table (4 identical non-kuin: 6 if melded else 8;
3 identical non-kuin: 1 if melded else 3; 2 identical non-kuin: 0;
4 unique-colour chut: 4; 3 unique-colour chut: 1; same-colour
kuin-tse-xiong: 2; same-colour kee-mah-pau: 1; lone kuin: 1), and returns
-1 with the set marked invalid for every composition matching no row. -/
theorem C3_scoring_table_exactness (cards : List Card)
    (h1 : 1 ≤ cards.length) (h4 : cards.length ≤ 4) :
    (mkSet cards).score = tableScore cards
      ∧ ((mkSet cards).invalid = true ↔ tableScore cards = -1) := by
  refine ⟨score_eq_table cards, ?_⟩
  rw [invalid_iff_score_neg_one, score_eq_table]

/-- Witness for C3 at a concrete two-card pair. -/
theorem C3_scoring_table_exactness_witness :
    (1 ≤ ([Card.init red mah false, Card.init red mah false] : List Card).length
        ∧ ([Card.init red mah false, Card.init red mah false] : List Card).length ≤ 4)
      ∧ ((mkSet [Card.init red mah false, Card.init red mah false]).score
            = tableScore [Card.init red mah false, Card.init red mah false]
          ∧ ((mkSet [Card.init red mah false, Card.init red mah false]).invalid = true
            ↔ tableScore [Card.init red mah false, Card.init red mah false] = -1)) :=
  ⟨by decide, C3_scoring_table_exactness [Card.init red mah false, Card.init red mah false]
    (by decide) (by decide)⟩

end SSP

namespace SSP

/-- A colour name outside the valid domain (used to exercise the invalid
construction path). -/
def blue : String := "blue"

/-- C9 counterexample.  The claim says constructing a `Card` with a colour
outside the valid domain fails immediately as an error; in the code the
construction succeeds and silently yields the sentinel card with colour
and suit `invalid` and rank 100. -/
theorem C9_invalid_card_counterexample :
    blue ∉ validColours
      ∧ Card.init blue kuin false
          = { colour := invalidName, suit := invalidName, rank := 100,
              active := false, locked := false } := by
  decide

/-- C9 amended.  Constructing a `Card` with a colour outside
red/yellow/white/green or a suit outside the seven valid suits does not
fail: it silently produces the sentinel card with colour `invalid`, suit
`invalid` and rank 100. -/
theorem C9_invalid_card_sentinel (colour suit : String) (active : Bool)
    (h : ¬(colour ∈ validColours ∧ suit ∈ validSuits)) :
    Card.init colour suit active
      = { colour := invalidName, suit := invalidName, rank := 100,
          active := active, locked := false } := by
  simp [Card.init, h]

/-- Witness for C9 at a concrete invalid suit. -/
theorem C9_invalid_card_sentinel_witness :
    ¬(red ∈ validColours ∧ blue ∈ validSuits)
      ∧ Card.init red blue true
          = { colour := invalidName, suit := invalidName, rank := 100,
              active := true, locked := false } :=
  ⟨by decide, C9_invalid_card_sentinel red blue true (by decide)⟩

set_option maxRecDepth 8000 in
/-- C8 counterexample.  For 6 players the code builds
`floor((6+1)/2) = 3` decks, 336 cards; the claim's `ceil((6+1)/2) = 4`
decks would be 448 cards. -/
theorem C8_deck_sizing_counterexample :
    (construct_deck id 6).cards.length = 336
      ∧ (construct_deck id 6).cards.length ≠ 4 * 7 * 4 * ((6 + 1 + 1) / 2) := by
  constructor
  · decide
  · decide

/-- The deck population has `4 × 7 suits × 4 colours × ndecks` cards. -/
theorem populate_deck_length (ndecks : Nat) :
    (populate_deck ndecks).length = 4 * 7 * 4 * ndecks := by
  simp [populate_deck, validSuits, validColours]
  ring

/-- C8 amended.  For every player count `n` and every length-preserving
shuffle, the constructed deck holds `4 × 7 suits × 4 colours × ndecks`
cards where `ndecks = 1` for `n < 2`, `2` for `2 ≤ n ≤ 4`, and
`floor((n+1)/2)` (not `ceil`) for `n > 4`. -/
theorem C8_deck_sizing (shuf : List Card → List Card) (n : Nat)
    (hshuf : ∀ l, (shuf l).length = l.length) :
    (construct_deck shuf n).cards.length
      = 4 * 7 * 4 * (if n < 2 then 1 else if n ≤ 4 then 2 else (n + 1) / 2) := by
  unfold construct_deck Deck.init
  split_ifs <;> simp [hshuf, populate_deck_length]

/-- Witness for C8 at 6 players with the identity shuffle. -/
theorem C8_deck_sizing_witness :
    (construct_deck id 6).cards.length
      = 4 * 7 * 4 * (if 6 < 2 then 1 else if 6 ≤ 4 then 2 else (6 + 1) / 2) :=
  C8_deck_sizing id 6 (fun _ => rfl)

end SSP

namespace SSP

/-- Dropping from a nonempty list keeps its last element at the end. -/
theorem drop_dropLast_eq {α : Type} (cs : List α) (hne : cs ≠ []) (k : Nat)
    (hk : k ≤ cs.dropLast.length) :
    cs.drop k = cs.dropLast.drop k ++ [cs.getLast hne] := by
  conv_lhs => rw [← List.dropLast_append_getLast hne]
  rw [List.drop_append_of_le_length hk]

/-- Taking few enough elements never reaches the last element. -/
theorem take_dropLast_eq {α : Type} (cs : List α) (hne : cs ≠ []) (k : Nat)
    (hk : k ≤ cs.dropLast.length) :
    cs.take k = cs.dropLast.take k := by
  conv_lhs => rw [← List.dropLast_append_getLast hne]
  rw [List.take_append_of_le_length hk]

/-- Closed form of the pop loop of `Deck.draw_cards`: popping `n ≤ |cs|`
cards yields the last `n` cards in reverse order, leaving the prefix. -/
theorem popLoop_spec (n : Nat) : ∀ (acc cs : List Card), n ≤ cs.length →
    popLoop n acc cs
      = (acc ++ (cs.drop (cs.length - n)).reverse, cs.take (cs.length - n)) := by
  induction n with
  | zero => intro acc cs _; simp [popLoop]
  | succ n ih =>
    intro acc cs hlen
    have hne : cs ≠ [] := by
      intro h; rw [h] at hlen; simp at hlen
    have hlast : cs.getLast? = some (cs.getLast hne) := List.getLast?_eq_getLast cs hne
    have hdli : cs.dropLast.length = cs.length - 1 := List.length_dropLast cs
    have hih := ih (acc ++ [cs.getLast hne]) cs.dropLast (by omega)
    rw [popLoop, hlast]
    show popLoop n (acc ++ [cs.getLast hne]) cs.dropLast = _
    rw [hih]
    have hk : cs.dropLast.length - n = cs.length - (n + 1) := by omega
    have hkle : cs.length - (n + 1) ≤ cs.dropLast.length := by omega
    rw [drop_dropLast_eq cs hne _ hkle, take_dropLast_eq cs hne _ hkle, Prod.mk.injEq, hk]
    constructor
    · simp [List.reverse_append, List.append_assoc]
    · rfl

/-- C10.  `Deck.draw_cards(ncards)` returns `None` and leaves the deck
unchanged whenever the deck holds `ncards` or fewer cards — including
exactly `ncards`, so the last card can never be drawn — and otherwise
returns exactly `ncards` cards removed from the top (end) of the deck. -/
theorem C10_draw_cards_guard (d : Deck) (ncards : Nat) (h : 1 ≤ ncards) :
    (d.cards.length ≤ ncards → draw_cards d ncards = (none, d))
      ∧ (ncards < d.cards.length →
          draw_cards d ncards
            = (some ((d.cards.drop (d.cards.length - ncards)).reverse),
               { d with cards := d.cards.take (d.cards.length - ncards) })
          ∧ ((d.cards.drop (d.cards.length - ncards)).reverse).length = ncards) := by
  constructor
  · intro hle
    unfold draw_cards
    rw [if_pos (by omega)]
  · intro hlt
    constructor
    · unfold draw_cards
      rw [if_neg (by omega)]
      rw [popLoop_spec ncards [] d.cards (by omega)]
      simp
    · rw [List.length_reverse, List.length_drop]
      omega

/-- Witness for C10 at a concrete two-card deck drawing one card. -/
theorem C10_draw_cards_guard_witness :
    1 ≤ 1
      ∧ (((Deck.mk 1 [Card.init red kuin false, Card.init green mah false]).cards.length ≤ 1 →
            draw_cards (Deck.mk 1 [Card.init red kuin false, Card.init green mah false]) 1
              = (none, Deck.mk 1 [Card.init red kuin false, Card.init green mah false]))
          ∧ (1 < (Deck.mk 1 [Card.init red kuin false, Card.init green mah false]).cards.length →
              draw_cards (Deck.mk 1 [Card.init red kuin false, Card.init green mah false]) 1
                = (some (((Deck.mk 1 [Card.init red kuin false, Card.init green mah false]).cards.drop
                    ((Deck.mk 1 [Card.init red kuin false, Card.init green mah false]).cards.length - 1)).reverse),
                   { Deck.mk 1 [Card.init red kuin false, Card.init green mah false] with
                      cards := (Deck.mk 1 [Card.init red kuin false, Card.init green mah false]).cards.take
                        ((Deck.mk 1 [Card.init red kuin false, Card.init green mah false]).cards.length - 1) })
              ∧ (((Deck.mk 1 [Card.init red kuin false, Card.init green mah false]).cards.drop
                  ((Deck.mk 1 [Card.init red kuin false, Card.init green mah false]).cards.length - 1)).reverse).length = 1)) :=
  ⟨by decide,
    C10_draw_cards_guard (Deck.mk 1 [Card.init red kuin false, Card.init green mah false]) 1 (by decide)⟩

end SSP

namespace SSP

/-- Resetting an already-clear lock flag is the identity. -/
theorem clearLock_eq_self (c : Card) (h : c.locked = false) :
    { c with locked := false } = c := by
  cases c; simp_all

/-- `sort_cards` permutes its input. -/
theorem sort_cards_perm (h : List Card) : (sort_cards h).Perm h := by
  unfold sort_cards
  exact List.perm_insertionSort _ h

/-- Sorting is idempotent. -/
theorem sort_cards_idem (h : List Card) : sort_cards (sort_cards h) = sort_cards h := by
  haveI : IsTotal Card (fun a b => a.rank ≤ b.rank) := ⟨fun a b => Nat.le_total a.rank b.rank⟩
  haveI : IsTrans Card (fun a b => a.rank ≤ b.rank) := ⟨fun _ _ _ => Nat.le_trans⟩
  exact List.Sorted.insertionSort_eq (List.sorted_insertionSort _ h)

/-- `evaluate_hand` is a function of the sorted working list only. -/
theorem evaluate_hand_sort (h : List Card) :
    evaluate_hand (sort_cards h) = evaluate_hand h := by
  unfold evaluate_hand
  rw [sort_cards_idem]

/-- Every card is unlocked when `evaluate_hand` returns. -/
theorem final_unlocked (h : List Card) :
    ∀ c ∈ (evaluate_hand h).final, c.locked = false := by
  intro c hc
  simp only [evaluate_hand, List.mem_map] at hc
  obtain ⟨x, _, hx⟩ := hc
  rw [← hx]

/-- On an all-unlocked input the only mutation `evaluate_hand` leaves
behind is the in-place sort of the input list. -/
theorem final_eq_sort (h : List Card) (hunl : ∀ c ∈ h, c.locked = false) :
    (evaluate_hand h).final = sort_cards h := by
  have hmem : ∀ c ∈ sort_cards h, c.locked = false := by
    intro c hc
    exact hunl c ((sort_cards_perm h).mem_iff.mp hc)
  simp only [evaluate_hand]
  exact List.map_congr_left (fun c hc => clearLock_eq_self c (hmem c hc)) |>.trans (List.map_id _)

/-- C4 counterexample.  `evaluate_hand` does persistently modify its
input: it sorts the caller's list in place (first conjunct: an unsorted
all-unlocked two-card input comes back reordered), and on an input
containing a locked card, evaluating a second time yields a different
hand score (second conjunct), so neither the no-modification clause nor
unconditional idempotence holds as stated. -/
theorem C4_evaluator_purity_counterexample :
    (evaluate_hand [Card.init green kuin false, Card.init red kuin false]).final
        ≠ [Card.init green kuin false, Card.init red kuin false]
      ∧ (evaluate_hand ((evaluate_hand
            [{ Card.init green kuin false with locked := true },
             Card.init red kuin false]).final)).hand_score
          ≠ (evaluate_hand
            [{ Card.init green kuin false with locked := true },
             Card.init red kuin false]).hand_score := by
  constructor
  · decide
  · decide

/-- C4 amended.  For every input whose cards are all unlocked (as holds
everywhere outside the evaluator): `evaluate_hand` leaves every card
unlocked on return; its only persistent modification of the input is the
stable in-place sort by rank; and evaluating the same hand again yields
identical found sets, identical hand score and identical loose cards. -/
theorem C4_evaluator_purity_idempotence (h : List Card)
    (hunl : ∀ c ∈ h, c.locked = false) :
    (∀ c ∈ (evaluate_hand h).final, c.locked = false)
      ∧ (evaluate_hand h).final = sort_cards h
      ∧ (evaluate_hand ((evaluate_hand h).final)).found_sets = (evaluate_hand h).found_sets
      ∧ (evaluate_hand ((evaluate_hand h).final)).hand_score = (evaluate_hand h).hand_score
      ∧ (evaluate_hand ((evaluate_hand h).final)).lang_pai = (evaluate_hand h).lang_pai := by
  have hrec : evaluate_hand ((evaluate_hand h).final) = evaluate_hand h := by
    rw [final_eq_sort h hunl, evaluate_hand_sort]
  exact ⟨final_unlocked h, final_eq_sort h hunl, by rw [hrec], by rw [hrec], by rw [hrec]⟩

/-- Witness for C4 at a concrete unlocked two-card hand. -/
theorem C4_evaluator_purity_idempotence_witness :
    (∀ c ∈ [Card.init green kuin false, Card.init red kuin false], c.locked = false)
      ∧ ((∀ c ∈ (evaluate_hand [Card.init green kuin false, Card.init red kuin false]).final,
            c.locked = false)
        ∧ (evaluate_hand [Card.init green kuin false, Card.init red kuin false]).final
            = sort_cards [Card.init green kuin false, Card.init red kuin false]
        ∧ (evaluate_hand ((evaluate_hand [Card.init green kuin false, Card.init red kuin false]).final)).found_sets
            = (evaluate_hand [Card.init green kuin false, Card.init red kuin false]).found_sets
        ∧ (evaluate_hand ((evaluate_hand [Card.init green kuin false, Card.init red kuin false]).final)).hand_score
            = (evaluate_hand [Card.init green kuin false, Card.init red kuin false]).hand_score
        ∧ (evaluate_hand ((evaluate_hand [Card.init green kuin false, Card.init red kuin false]).final)).lang_pai
            = (evaluate_hand [Card.init green kuin false, Card.init red kuin false]).lang_pai) :=
  ⟨by decide,
    C4_evaluator_purity_idempotence [Card.init green kuin false, Card.init red kuin false]
      (by decide)⟩

end SSP
namespace SSP

/-- The invariant maintained by every tier of `evaluate_hand`: lock flags
sit inside the working list, committed sets hold distinct in-range indices,
committed sets are pairwise disjoint, an index is locked exactly when some
committed set holds it, and every committed set scores above -1. -/
def EvalInv (cs : List Card) (st : EvalSt) : Prop :=
  st.locked.length = cs.length
    ∧ (∀ s ∈ st.found, s.Nodup ∧ ∀ i ∈ s, i < cs.length)
    ∧ st.found.Pairwise List.Disjoint
    ∧ (∀ i, i < cs.length →
        ((st.locked.getD i true = true) ↔ ∃ s ∈ st.found, i ∈ s))
    ∧ (∀ s ∈ st.found, (mkSet (idxCards cs s)).score ≠ -1)

theorem markLocked_length (idxs : List Nat) :
    ∀ (l : List Bool) (k : Nat), (markLocked idxs l k).length = l.length := by
  intro l
  induction l with
  | nil => intro k; rfl
  | cons b rest ih => intro k; simp [markLocked, ih]

theorem markLocked_getD (idxs : List Nat) :
    ∀ (l : List Bool) (k i : Nat),
      (markLocked idxs l k).getD i true
        = if (k + i) ∈ idxs then true else l.getD i true := by
  intro l
  induction l with
  | nil => intro k i; simp [markLocked]
  | cons b rest ih =>
    intro k i
    cases i with
    | zero => simp [markLocked]
    | succ i =>
      have := ih (k + 1) i
      simp only [markLocked, List.getD_cons_succ, this]
      have harith : k + 1 + i = k + (i + 1) := by omega
      rw [harith]

theorem idxs_not_locked_getD (locked : List Bool) (idxs : List Nat)
    (h : idxs_not_locked locked idxs = true) :
    ∀ i ∈ idxs, locked.getD i true = false := by
  intro i hi
  simp only [idxs_not_locked, List.all_eq_true] at h
  have := h i hi
  simpa using this

theorem commitSet_inv (cs : List Card) (st : EvalSt) (idxs : List Nat)
    (hInv : EvalInv cs st) (hnd : idxs.Nodup)
    (hbd : ∀ i ∈ idxs, i < cs.length)
    (hunl : idxs_not_locked st.locked idxs = true)
    (hscore : (mkSet (idxCards cs idxs)).score ≠ -1) :
    EvalInv cs (commitSet st idxs) := by
  obtain ⟨hlen, hval, hpair, hiff, hsc⟩ := hInv
  have hun := idxs_not_locked_getD st.locked idxs hunl
  have hnotold : ∀ i ∈ idxs, ∀ s ∈ st.found, i ∉ s := by
    intro i hi s hs hmem
    have h1 : st.locked.getD i true = true := (hiff i (hbd i hi)).mpr ⟨s, hs, hmem⟩
    have h2 := hun i hi
    rw [h1] at h2
    exact Bool.true_eq_false.mp h2
  refine ⟨?_, ?_, ?_, ?_, ?_⟩
  · simpa [commitSet, markLocked_length] using hlen
  · intro s hs
    simp only [commitSet, List.mem_append, List.mem_singleton] at hs
    rcases hs with hs | hs
    · exact hval s hs
    · exact hs ▸ ⟨hnd, hbd⟩
  · simp only [commitSet]
    rw [List.pairwise_append]
    refine ⟨hpair, List.pairwise_singleton _ _, ?_⟩
    intro s hs t ht
    simp only [List.mem_singleton] at ht
    subst ht
    intro i his hit
    exact hnotold i hit s hs his
  · intro i hilt
    simp only [commitSet, markLocked_getD, Nat.zero_add, List.mem_append, List.mem_singleton]
    by_cases hin : i ∈ idxs
    · simp only [hin, if_pos, true_iff]
      exact ⟨idxs, Or.inr rfl, hin⟩
    · rw [if_neg hin]
      rw [hiff i hilt]
      constructor
      · rintro ⟨s, hs, hmem⟩; exact ⟨s, Or.inl hs, hmem⟩
      · rintro ⟨s, hs | hs, hmem⟩
        · exact ⟨s, hs, hmem⟩
        · exact absurd (hs ▸ hmem) hin
  · intro s hs
    simp only [commitSet, List.mem_append, List.mem_singleton] at hs
    rcases hs with hs | hs
    · exact hsc s hs
    · exact hs ▸ hscore

end SSP

namespace SSP

theorem quadIdxs_mem (n : Nat) (x : List Nat) (hx : x ∈ quadIdxs n) :
    ∃ i j k l, x = [i, j, k, l] ∧ i < j ∧ j < k ∧ k < l ∧ l < n := by
  simp only [quadIdxs, List.mem_flatMap, List.mem_map, List.mem_range, List.mem_range'_1] at hx
  obtain ⟨i, hi, j, hj, k, hk, l, hl, hx⟩ := hx
  exact ⟨i, j, k, l, hx.symm, by omega, by omega, by omega, by omega⟩

theorem tripleIdxs_mem (n : Nat) (x : List Nat) (hx : x ∈ tripleIdxs n) :
    ∃ i j k, x = [i, j, k] ∧ i < j ∧ j < k ∧ k < n := by
  simp only [tripleIdxs, List.mem_flatMap, List.mem_map, List.mem_range, List.mem_range'_1] at hx
  obtain ⟨i, hi, j, hj, k, hk, hx⟩ := hx
  exact ⟨i, j, k, hx.symm, by omega, by omega, by omega⟩

theorem kuin_singleton_score (c : Card) (h : c.suit = kuin) :
    (mkSet [c]).score = 1 := by
  rw [score_eq_table]
  simp [tableScore, cards_same_suit, cards_same_colour, h]

theorem foldl_inv {β : Type} (step : EvalSt → β → EvalSt) (P : EvalSt → Prop)
    (l : List β) (hstep : ∀ st x, x ∈ l → P st → P (step st x)) :
    ∀ st, P st → P (l.foldl step st) := by
  induction l with
  | nil => intro st h; exact h
  | cons a l ih =>
    intro st h
    exact ih (fun st x hx hp => hstep st x (List.mem_cons_of_mem a hx) hp) _
      (hstep st a (List.mem_cons_self a l) h)

end SSP

namespace SSP

theorem tier2step_inv (cs : List Card) (st : EvalSt) (x : List Nat)
    (hx : x ∈ quadIdxs cs.length) (hInv : EvalInv cs st) :
    EvalInv cs (tier2step cs st x) := by
  obtain ⟨i, j, k, l, hxe, hij, hjk, hkl, hln⟩ := quadIdxs_mem _ x hx
  simp only [tier2step]
  split_ifs with h1 h2
  · rw [Bool.and_eq_true, beq_iff_eq] at h2
    refine commitSet_inv cs st x hInv ?_ ?_ h2.2 ?_
    · rw [hxe]; simp; omega
    · intro m hm; rw [hxe] at hm; simp at hm
      rcases hm with rfl | rfl | rfl | rfl <;> omega
    · rw [h2.1]; decide
  · exact hInv
  · exact hInv

theorem tier4step_inv (cs : List Card) (st : EvalSt) (x : List Nat)
    (hx : x ∈ tripleIdxs cs.length) (hInv : EvalInv cs st) :
    EvalInv cs (tier4step cs st x) := by
  obtain ⟨i, j, k, hxe, hij, hjk, hkn⟩ := tripleIdxs_mem _ x hx
  simp only [tier4step]
  split_ifs with h1
  · rw [Bool.and_eq_true] at h1
    have hsc : (mkSet (idxCards cs x)).score = 2 ∨ (mkSet (idxCards cs x)).score = 1 := by
      have := h1.1
      simpa using this
    refine commitSet_inv cs st x hInv ?_ ?_ h1.2 ?_
    · rw [hxe]; simp; omega
    · intro m hm; rw [hxe] at hm; simp at hm
      rcases hm with rfl | rfl | rfl <;> omega
    · rcases hsc with h | h <;> rw [h] <;> decide
  · exact hInv

theorem tier5step_inv (cs : List Card) (st : EvalSt) (i : Nat)
    (hx : i ∈ List.range cs.length) (hInv : EvalInv cs st) :
    EvalInv cs (tier5step cs st i) := by
  rw [List.mem_range] at hx
  simp only [tier5step]
  split_ifs with h1
  · rw [Bool.and_eq_true, beq_iff_eq] at h1
    refine commitSet_inv cs st [i] hInv (List.nodup_singleton i) ?_ h1.2 ?_
    · intro m hm; simp at hm; omega
    · have : (mkSet (idxCards cs [i])).score = 1 := by
        unfold idxCards
        simp only [List.map_cons, List.map_nil]
        exact kuin_singleton_score _ h1.1
      rw [this]; decide
  · exact hInv

end SSP

namespace SSP

theorem tier1_inv (cs : List Card) :
    ∀ (fuel i : Nat) (st : EvalSt), EvalInv cs st → EvalInv cs (tier1 cs fuel i st) := by
  intro fuel
  induction fuel with
  | zero => intro i st h; exact h
  | succ fuel ih =>
    intro i st h
    simp only [tier1]
    split_ifs with h1 h2
    · rw [Bool.and_eq_true] at h2
      refine ih _ _ (commitSet_inv cs st _ h ?_ ?_ h2.2 ?_)
      · simp
      · intro m hm; simp at hm
        rcases hm with rfl | rfl | rfl | rfl <;> omega
      · have hsc : (mkSet (idxCards cs [i, i + 1, i + 2, i + 3])).score = 8
            ∨ (mkSet (idxCards cs [i, i + 1, i + 2, i + 3])).score = 6 := by
          simpa using h2.1
        rcases hsc with h | h <;> rw [h] <;> decide
    · exact ih _ _ h
    · exact h

theorem tier3_inv (cs : List Card) :
    ∀ (fuel i : Nat) (st : EvalSt), EvalInv cs st → EvalInv cs (tier3 cs fuel i st) := by
  intro fuel
  induction fuel with
  | zero => intro i st h; exact h
  | succ fuel ih =>
    intro i st h
    simp only [tier3]
    split_ifs with h1 h2 h3
    · rw [Bool.and_eq_true] at h3
      refine ih _ _ (commitSet_inv cs st _ h ?_ ?_ h3.2 ?_)
      · simp
      · intro m hm; simp at hm
        rcases hm with rfl | rfl | rfl <;> omega
      · have hsc : (mkSet (idxCards cs [i, i + 1, i + 2])).score = 3
            ∨ (mkSet (idxCards cs [i, i + 1, i + 2])).score = 1 := by
          simpa using h3.1
        rcases hsc with h | h <;> rw [h] <;> decide
    · exact ih _ _ h
    · exact ih _ _ h
    · exact h

theorem tier6_inv (cs : List Card) :
    ∀ (fuel i : Nat) (st : EvalSt), EvalInv cs st → EvalInv cs (tier6 cs fuel i st) := by
  intro fuel
  induction fuel with
  | zero => intro i st h; exact h
  | succ fuel ih =>
    intro i st h
    simp only [tier6]
    split_ifs with h1 h2
    · rw [Bool.and_eq_true, beq_iff_eq] at h2
      refine ih _ _ (commitSet_inv cs st _ h ?_ ?_ h2.2 ?_)
      · simp
      · intro m hm; simp at hm
        rcases hm with rfl | rfl <;> omega
      · rw [h2.1]; decide
    · exact ih _ _ h
    · exact h

theorem evalInit_inv (cs : List Card) (hunl : ∀ c ∈ cs, c.locked = false) :
    EvalInv cs { locked := cs.map (fun c => c.locked), found := [] } := by
  refine ⟨by simp, by simp, List.Pairwise.nil, ?_, by simp⟩
  intro i hilt
  have hget : (cs.map (fun c => c.locked)).getD i true = false := by
    rw [List.getD_eq_getElem?_getD, List.getElem?_eq_getElem (by simpa using hilt)]
    simp only [List.getElem_map, Option.getD_some]
    exact hunl _ (List.getElem_mem _)
  rw [hget]
  simp

theorem evalFinalSt_inv (cs : List Card) (hunl : ∀ c ∈ cs, c.locked = false) :
    EvalInv cs (evalFinalSt cs) := by
  simp only [evalFinalSt]
  apply tier6_inv
  apply foldl_inv _ _ _ (fun st x hx h => tier5step_inv cs st x hx h)
  apply foldl_inv _ _ _ (fun st x hx h => tier4step_inv cs st x hx h)
  apply tier3_inv
  apply foldl_inv _ _ _ (fun st x hx h => tier2step_inv cs st x hx h)
  apply tier1_inv
  exact evalInit_inv cs hunl

end SSP

namespace SSP

theorem map_getD_range {α : Type} (l : List α) (d : α) :
    (List.range l.length).map (fun i => l.getD i d) = l := by
  induction l with
  | nil => rfl
  | cons c rest ih =>
    rw [List.length_cons, List.range_succ_eq_map, List.map_cons, List.map_map]
    have hc : ((fun i => (c :: rest).getD i d) ∘ Nat.succ) = (fun i => rest.getD i d) := by
      funext i
      simp [List.getD_cons_succ]
    rw [List.getD_cons_zero, hc, ih]

theorem found_join_perm (cs : List Card) (st : EvalSt) (hInv : EvalInv cs st) :
    (st.found.flatten
      ++ (List.range cs.length).filter (fun i => st.locked.getD i true == false)).Perm
      (List.range cs.length) := by
  obtain ⟨hlen, hval, hpair, hiff, _⟩ := hInv
  have hLnd : st.found.flatten.Nodup := by
    rw [List.nodup_flatten]
    exact ⟨fun s hs => (hval s hs).1, hpair⟩
  have hUnd : ((List.range cs.length).filter
      (fun i => st.locked.getD i true == false)).Nodup :=
    (List.nodup_range _).filter _
  have hdisj : ∀ i ∈ st.found.flatten,
      i ∉ (List.range cs.length).filter (fun i => st.locked.getD i true == false) := by
    intro i hiL hiU
    rw [List.mem_flatten] at hiL
    obtain ⟨s, hs, hmem⟩ := hiL
    rw [List.mem_filter, List.mem_range] at hiU
    have h1 : st.locked.getD i true = true := (hiff i hiU.1).mpr ⟨s, hs, hmem⟩
    have h2 := hiU.2
    rw [h1] at h2
    simp at h2
  have happ := List.nodup_append.mpr ⟨hLnd, hUnd, hdisj⟩
  rw [List.perm_ext_iff_of_nodup happ (List.nodup_range _)]
  intro a
  rw [List.mem_append, List.mem_range, List.mem_filter, List.mem_flatten, List.mem_range]
  constructor
  · rintro (⟨s, hs, hmem⟩ | ⟨ha, _⟩)
    · exact (hval s hs).2 a hmem
    · exact ha
  · intro ha
    by_cases hl : st.locked.getD a true = true
    · obtain ⟨s, hs, hm⟩ := (hiff a ha).mp hl
      exact Or.inl ⟨s, hs, hm⟩
    · right
      refine ⟨ha, ?_⟩
      simp only [Bool.not_eq_true] at hl
      rw [hl]
      rfl

end SSP

namespace SSP

/-- C5 counterexample.  As stated the claim quantifies over every input
hand; a hand containing a pre-locked card refutes the coverage clause:
the evaluator neither commits the locked card to a set nor reports it
loose, so the found sets and loose cards do not cover the input. -/
theorem C5_partition_counterexample :
    ¬ ((((evaluate_hand [{ Card.init green kuin false with locked := true }]).found_sets.map
          (fun s => s.cards)).flatten
        ++ (evaluate_hand [{ Card.init green kuin false with locked := true }]).lang_pai).Perm
        [{ Card.init green kuin false with locked := true }]) := by
  decide

set_option maxRecDepth 100000 in
/-- C5 amended.  For every input hand whose cards are all unlocked (as
holds everywhere outside the evaluator): the sets found by
`evaluate_hand` are pairwise disjoint as index sets into the sorted
working list (no card object in two sets, no card twice in one set),
their card indices never appear among the loose-card indices, together
with the loose cards they cover exactly the input cards (as a
permutation), and no returned set has score -1.  Moreover a card
consumed by a higher-priority tier is never reused by a later tier: in
particular four identical green chut cards alongside red, yellow and
white chut are committed as a 4-identical set (score 8), leaving the
three-colour chut triple (score 1), not a 4-colour multicolour set. -/
theorem C5_evaluator_partition (h : List Card)
    (hunl : ∀ c ∈ h, c.locked = false) :
    (evaluate_hand h).foundIdx.Pairwise List.Disjoint
      ∧ (∀ s ∈ (evaluate_hand h).foundIdx, s.Nodup)
      ∧ (∀ s ∈ (evaluate_hand h).foundIdx, ∀ i ∈ s, i ∉ (evaluate_hand h).looseIdx)
      ∧ ((((evaluate_hand h).found_sets.map (fun s => s.cards)).flatten
          ++ (evaluate_hand h).lang_pai).Perm h)
      ∧ (∀ s ∈ (evaluate_hand h).found_sets, s.score ≠ -1)
      ∧ (evaluate_hand h).found_sets
          = (evaluate_hand h).foundIdx.map
              (fun idxs => mkSet (idxCards (sort_cards h) idxs))
      ∧ (evaluate_hand [Card.init red chut false, Card.init yellow chut false,
            Card.init white chut false, Card.init green chut false,
            Card.init green chut false, Card.init green chut false,
            Card.init green chut false]).found_sets.map
            (fun s => (s.cards.map (fun c => (c.colour, c.suit)), s.score, is_identical_set s))
          = [([(green, chut), (green, chut), (green, chut), (green, chut)], 8, true),
             ([(red, chut), (yellow, chut), (white, chut)], 1, false)] := by
  have hcs : ∀ c ∈ sort_cards h, c.locked = false :=
    fun c hc => hunl c ((sort_cards_perm h).mem_iff.mp hc)
  have hInv := evalFinalSt_inv (sort_cards h) hcs
  obtain ⟨hlen, hval, hpair, hiff, hsc⟩ := hInv
  have hperm := found_join_perm (sort_cards h) (evalFinalSt (sort_cards h))
    ⟨hlen, hval, hpair, hiff, hsc⟩
  simp only [evaluate_hand]
  refine ⟨hpair, fun s hs => (hval s hs).1, ?_, ?_, ?_, trivial, by decide⟩
  · intro s hs i his hilf
    rw [List.mem_filter, List.mem_range] at hilf
    have h1 : (evalFinalSt (sort_cards h)).locked.getD i true = true :=
      (hiff i hilf.1).mpr ⟨s, hs, his⟩
    have h2 := hilf.2
    rw [h1] at h2
    simp at h2
  · have hmap := hperm.map (fun i => (sort_cards h).getD i default)
    rw [List.map_append, map_getD_range] at hmap
    rw [List.map_map]
    have hco : ((fun s => s.cards) ∘ fun idxs => mkSet (idxCards (sort_cards h) idxs))
        = (List.map (fun i => (sort_cards h).getD i default)) := rfl
    rw [hco, ← List.map_flatten]
    exact hmap.trans (sort_cards_perm h)
  · intro s hs
    rw [List.mem_map] at hs
    obtain ⟨idxs, hidxs, rfl⟩ := hs
    exact hsc idxs hidxs

/-- Witness for C5 at the empty hand. -/
theorem C5_evaluator_partition_witness :
    (∀ c ∈ ([] : List Card), c.locked = false)
      ∧ ((evaluate_hand ([] : List Card)).foundIdx.Pairwise List.Disjoint
        ∧ (∀ s ∈ (evaluate_hand ([] : List Card)).foundIdx, s.Nodup)
        ∧ (∀ s ∈ (evaluate_hand ([] : List Card)).foundIdx, ∀ i ∈ s,
            i ∉ (evaluate_hand ([] : List Card)).looseIdx)
        ∧ ((((evaluate_hand ([] : List Card)).found_sets.map (fun s => s.cards)).flatten
            ++ (evaluate_hand ([] : List Card)).lang_pai).Perm ([] : List Card))
        ∧ (∀ s ∈ (evaluate_hand ([] : List Card)).found_sets, s.score ≠ -1)
        ∧ (evaluate_hand ([] : List Card)).found_sets
            = (evaluate_hand ([] : List Card)).foundIdx.map
                (fun idxs => mkSet (idxCards (sort_cards ([] : List Card)) idxs))
        ∧ (evaluate_hand [Card.init red chut false, Card.init yellow chut false,
              Card.init white chut false, Card.init green chut false,
              Card.init green chut false, Card.init green chut false,
              Card.init green chut false]).found_sets.map
              (fun s => (s.cards.map (fun c => (c.colour, c.suit)), s.score, is_identical_set s))
            = [([(green, chut), (green, chut), (green, chut), (green, chut)], 8, true),
               ([(red, chut), (yellow, chut), (white, chut)], 1, false)]) :=
  ⟨fun c hc => absurd hc (List.not_mem_nil c),
    C5_evaluator_partition [] (fun c hc => absurd hc (List.not_mem_nil c))⟩

end SSP

namespace SSP

/-- The `Player` class of sisepai.py: all its instance fields. -/
structure Player where
  name : String
  field_discards : List Card
  field_melded_sets : List CardSet
  total_score : Int
  hand : List Card
  hand_sets : List CardSet
  hand_score : Int
  facedown_sets : List CardSet
  facedown_score : Int
  melded_sets : List CardSet
  melded_score : Int
  lang_pai : List Card
  collection : List Card
deriving DecidableEq

/-- `Player.__init__`. -/
def Player.init (name : String) : Player :=
  { name := name, field_discards := [], field_melded_sets := [], total_score := 0,
    hand := [], hand_sets := [], hand_score := 0, facedown_sets := [],
    facedown_score := 0, melded_sets := [], melded_score := 0, lang_pai := [],
    collection := [] }

/-- `for c in cards: h.remove(c)`: remove each card in turn.  Python's
`remove` matches by object identity; the removed objects come from the
list itself and equal-valued cards are interchangeable, so removal of the
first equal value is an exact model. -/
def removeCards (cards : List Card) (h : List Card) : List Card :=
  cards.foldl (fun acc c => acc.erase c) h

/-- `Player.update_collection`: unlock the hand cards and rebuild the
sorted list of all owned cards (hand, then facedown, then melded). -/
def update_collection (p : Player) : Player :=
  let hand2 := p.hand.map (fun c => { c with locked := false })
  { p with
    hand := hand2
    collection := sort_cards (hand2
      ++ (p.facedown_sets.map (fun s => s.cards)).flatten
      ++ (p.melded_sets.map (fun s => s.cards)).flatten) }

/-- `Player.evaluate_player_hand`: re-evaluate the hand (which sorts it in
place), refresh the derived fields, then rebuild the collection. -/
def evaluate_player_hand (p : Player) : Player :=
  let e := evaluate_hand p.hand
  update_collection { p with
    hand := e.final
    hand_sets := e.found_sets
    hand_score := e.hand_score
    lang_pai := e.lang_pai
    total_score := e.hand_score + p.facedown_score + p.melded_score }

/-- `Player.can_win`: no loose cards and a total score of at least 9. -/
def can_win (p : Player) : Bool :=
  (p.lang_pai.length == 0) && decide (9 ≤ p.total_score)

/-- `Player.can_tok`: same hand score, strictly fewer loose cards, at
least one current loose card, and a total score of at least 9. -/
def can_tok (p : Player) (hs : Int) (lp : List Card) : Bool :=
  (hs == p.hand_score) && decide (lp.length < p.lang_pai.length)
    && decide (0 < p.lang_pai.length) && decide (9 ≤ p.total_score)

/-- `Player.discard_card`.  `np.random.choice` is modelled by the index
stream `r` at position `k` (reduced modulo the choice-list length, which
is positive at every use).  The rejection loop that redraws a random set
until it has more than one card and the minimal score is modelled by one
oracle choice from the list of sets satisfying the loop's exit condition;
that list is non-empty whenever the loop terminates, which it does with
probability one. -/
def discard_card (r : Nat → Nat) (k : Nat) (p : Player) :
    Option Card × Player × Nat :=
  if 0 < p.lang_pai.length then
    let dc := p.lang_pai.getD (r k % p.lang_pai.length) default
    (some dc, evaluate_player_hand { p with hand := p.hand.erase dc }, k + 1)
  else if can_win p = false then
    if exists_nks p.hand_sets = false then (none, p, k)
    else
      match p.hand_sets.find? (fun s => s.cards.length == 2) with
      | some s =>
        let dc := s.cards.getD (r k % s.cards.length) default
        (some dc, evaluate_player_hand { p with hand := p.hand.erase dc }, k + 1)
      | none =>
        match p.hand_sets.find? (fun s =>
            (s.cards.length == 3) && cards_all_suit s.cards chut) with
        | some s =>
          let dc := s.cards.getD (r k % s.cards.length) default
          (some dc, evaluate_player_hand { p with hand := p.hand.erase dc }, k + 1)
        | none =>
          let ms := p.hand_sets.foldl
            (fun m s => if 1 < s.cards.length ∧ s.score < m then s.score else m) 10
          let cands := p.hand_sets.filter
            (fun s => decide (1 < s.cards.length) && (s.score == ms))
          let rs := cands.getD (r k % cands.length) default
          let dc := rs.cards.getD (r (k + 1) % rs.cards.length) default
          (some dc, evaluate_player_hand { p with hand := p.hand.erase dc }, k + 2)
  else (none, p, k)

/-- `Player.check_meld`: a pure query for the set the player could meld
with the given active card; requires a strict hand-score improvement and
a remaining legal discard. -/
def check_meld (p : Player) (active_card : Card) : Option CardSet :=
  let e := evaluate_hand (p.hand ++ [active_card])
  match e.found_sets.find? (fun s => s.melded) with
  | none => none
  | some ms =>
    if ((0 < e.lang_pai.length : Bool) || exists_nks (e.found_sets.erase ms))
        && decide (p.hand_score < e.hand_score) then some ms
    else none

/-- The value `play_turn` hands back to game.py: a concrete discard card,
the request for another draw, or the winning call. -/
inductive TurnRes where
  | card (c : Card)
  | draw
  | kaeu
deriving DecidableEq

/-- The meld loop of `play_turn`: every melded found set is appended to
the player's melded sets, its score added, and its cards removed from the
working hand; `ms` ends as the last melded set. -/
def meldLoop : List CardSet → List Card × List CardSet × Int × Option CardSet →
    List Card × List CardSet × Int × Option CardSet
  | [], acc => acc
  | s :: rest, (h, melds, msc, ms) =>
    if s.melded then
      meldLoop rest (removeCards s.cards h, melds ++ [s], msc + s.score, some s)
    else meldLoop rest (h, melds, msc, ms)

/-- `Player.play_turn` (with `return_set=True`; the `return_set=False`
variant just drops the first component).  Python's rollback line
`self.melded_sets.remove(ms)` removes by object identity; `ms` is the most
recently appended, freshly constructed set object, so it removes the final
element — modelled by `dropLast`.  When `ms` is `None` the Python raises
`ValueError` (remove of a missing element); that path returns `none`. -/
def play_turn (r : Nat → Nat) (k : Nat) (p : Player) (active_card : Card)
    (drawn : Bool) : Option (Option CardSet × TurnRes × Player × Nat) :=
  let old_hand := p.hand
  let e := evaluate_hand (p.hand ++ [active_card])
  if decide (p.hand_score < e.hand_score) || can_tok p e.hand_score e.lang_pai then
    let m := meldLoop e.found_sets (e.final, p.melded_sets, p.melded_score, none)
    let p1 := evaluate_player_hand
      { p with
        hand := m.1
        melded_sets := m.2.1
        melded_score := m.2.2.1 }
    let ms := m.2.2.2
    if can_win p1 then some (ms, TurnRes.kaeu, p1, k)
    else
      let d := discard_card r k p1
      match d.1 with
      | none =>
        match ms with
        | none => none
        | some s =>
          let p2 := evaluate_player_hand
            { d.2.1 with
              melded_sets := (d.2.1).melded_sets.dropLast
              melded_score := (d.2.1).melded_score - s.score
              hand := old_hand }
          if drawn then some (none, TurnRes.card active_card, p2, d.2.2)
          else some (none, TurnRes.draw, p2, d.2.2)
      | some dc => some (ms, TurnRes.card { dc with active := true }, d.2.1, d.2.2)
  else if drawn then some (none, TurnRes.card active_card, p, k)
  else some (none, TurnRes.draw, p, k)

/-- `Player.update_field_info`: copy the public field information. -/
def update_field_info (p : Player) (dcards : List Card) (msets : List CardSet) : Player :=
  { p with field_discards := dcards, field_melded_sets := msets }

/-- One iteration of `Player.separate_facedown_sets`: a dealt 4-card
same-suit set is moved face down when it is a 4-colour chut leaving no
other chut in the hand, or immediately when it is a 4-of-a-kind. -/
def sepStep (p : Player) (s : CardSet) : Player :=
  if (s.cards.length == 4) && cards_same_suit s.cards then
    if cards_unique_colours s.cards then
      let th := removeCards s.cards p.hand
      if hand_contains_suit th chut = false then
        { p with
          facedown_sets := p.facedown_sets ++ [s]
          hand := removeCards s.cards p.hand
          facedown_score := p.facedown_score + s.score }
      else p
    else if cards_same_colour s.cards then
      { p with
        facedown_sets := p.facedown_sets ++ [s]
        hand := removeCards s.cards p.hand
        facedown_score := p.facedown_score + s.score }
    else p
  else p

/-- `Player.separate_facedown_sets`. -/
def separate_facedown_sets (p : Player) : Player :=
  (evaluate_hand p.hand).found_sets.foldl sepStep p

/-- `Player.give_cards`: append the dealt cards, sort, separate facedown
sets, then evaluate the remaining hand. -/
def give_cards (p : Player) (cards : List Card) : Player :=
  evaluate_player_hand (separate_facedown_sets
    { p with hand := sort_cards (p.hand ++ cards) })

end SSP

namespace SSP

/-- Return tag of `check_oot` and `conduct_turn`. -/
def meldS : String := "meld"

/-- Return tag of `check_oot` and `conduct_turn`. -/
def ootS : String := "oot"

/-- Return tag of `conduct_turn`. -/
def nextS : String := "next"

/-- Return tag of `conduct_turn`. -/
def exitS : String := "exit"

/-- Return tag of `conduct_turn`. -/
def winS : String := "win"

/-- A melded 4-of-a-kind identical set, as tested by `check_oot`. -/
def eligible4 (s : CardSet) : Bool :=
  is_identical_set s && (s.cards.length == 4)

/-- A melded 3-of-a-kind identical set, as tested by `check_oot`. -/
def eligible3 (s : CardSet) : Bool :=
  is_identical_set s && (s.cards.length == 3)

/-- One scan loop of `check_oot`: `cnt` remaining iterations, starting at
player index `cp` and advancing by `(cp+1) % n`.  Out-of-range indices
(an `IndexError` in Python) never occur for `cp < n`. -/
def scanTier (oot_sets : List (Option CardSet)) (n : Nat) (pred : CardSet → Bool) :
    Nat → Nat → Option Nat
  | _, 0 => none
  | cp, cnt + 1 =>
    match oot_sets.getD cp none with
    | some s =>
      if pred s then some cp
      else scanTier oot_sets n pred ((cp + 1) % n) cnt
    | none => scanTier oot_sets n pred ((cp + 1) % n) cnt

/-- `check_oot` of game.py.  After the first full scan the running index
has wrapped back to `current` (for `current < n`), which is where the
4-colour-chut test reads `oot_sets[cp]`. -/
def check_oot (players : List Player) (active_card : Card) (current : Nat) :
    String × Nat :=
  let n := players.length
  let oot_sets := players.map (fun p => check_meld p active_card)
  match scanTier oot_sets n eligible4 current n with
  | some cp => if cp = (current + 1) % n then (meldS, current) else (ootS, cp)
  | none =>
    let third :=
      match scanTier oot_sets n eligible3 current n with
      | some cp => if cp = (current + 1) % n then (meldS, current) else (ootS, cp)
      | none => (meldS, current)
    match oot_sets.getD current none with
    | some s => if is_four_colour_set s then (meldS, current) else third
    | none => third

/-- The scan order of spec §4.6: all player indices in turn order
starting from the current player. -/
def rotation (current n : Nat) : List Nat :=
  (List.range n).map (fun k => (current + k) % n)

/-- Eligibility of the player at index `cp` under `pred`. -/
def eligAt (oot_sets : List (Option CardSet)) (pred : CardSet → Bool) (cp : Nat) : Bool :=
  match oot_sets.getD cp none with
  | some s => pred s
  | none => false

/-- Out-of-turn priority resolution written directly from the claim and
spec §4.6: find the first player in turn order from the current player
with an eligible 4-of-a-kind meld — reassign unless it is the natural
next player; otherwise the 4-colour chut is claimable only by the
current player; otherwise the same scan for 3-of-a-kinds; default
`meld` with no reassignment. -/
def check_oot_spec (players : List Player) (active_card : Card) (current : Nat) :
    String × Nat :=
  let n := players.length
  let oot_sets := players.map (fun p => check_meld p active_card)
  match (rotation current n).find? (eligAt oot_sets eligible4) with
  | some cp => if cp = (current + 1) % n then (meldS, current) else (ootS, cp)
  | none =>
    if eligAt oot_sets is_four_colour_set current then (meldS, current)
    else
      match (rotation current n).find? (eligAt oot_sets eligible3) with
      | some cp => if cp = (current + 1) % n then (meldS, current) else (ootS, cp)
      | none => (meldS, current)

end SSP

namespace SSP

/-- The scan loop of `check_oot` finds exactly the first eligible player
index in turn order (`(cp+k) % n` for `k < cnt`). -/
theorem scanTier_eq_find (oot_sets : List (Option CardSet)) (n : Nat)
    (pred : CardSet → Bool) (hn : 0 < n) :
    ∀ (cnt cp : Nat), cp < n →
      scanTier oot_sets n pred cp cnt
        = ((List.range cnt).map (fun k => (cp + k) % n)).find? (eligAt oot_sets pred) := by
  intro cnt
  induction cnt with
  | zero => intro cp _; simp [scanTier]
  | succ cnt ih =>
    intro cp hcp
    rw [List.range_succ_eq_map, List.map_cons, List.map_map]
    have hhead : (cp + 0) % n = cp := by
      rw [Nat.add_zero, Nat.mod_eq_of_lt hcp]
    rw [hhead]
    have htail : ((fun k => (cp + k) % n) ∘ Nat.succ) = (fun k => ((cp + 1) % n + k) % n) := by
      funext k
      simp only [Function.comp]
      rw [Nat.mod_add_mod]
      congr 1
      omega
    rw [htail]
    have hrec := ih ((cp + 1) % n) (Nat.mod_lt _ hn)
    match hos : oot_sets.getD cp none with
    | some s =>
      have he : eligAt oot_sets pred cp = pred s := by
        unfold eligAt
        rw [hos]
      rw [scanTier, hos]
      show (if pred s = true then some cp else scanTier oot_sets n pred ((cp + 1) % n) cnt) = _
      by_cases hp : pred s = true
      · rw [if_pos hp, List.find?_cons]
        have : eligAt oot_sets pred cp = true := by rw [he, hp]
        rw [this]
      · rw [if_neg hp, List.find?_cons]
        rw [Bool.not_eq_true] at hp
        have hf : eligAt oot_sets pred cp = false := by rw [he, hp]
        rw [hf]
        exact hrec
    | none =>
      have he : eligAt oot_sets pred cp = false := by
        unfold eligAt
        rw [hos]
      rw [scanTier, hos]
      show scanTier oot_sets n pred ((cp + 1) % n) cnt = _
      rw [List.find?_cons, he]
      exact hrec

/-- C7.  Out-of-turn priority: `check_oot` computes exactly the spec's
priority resolution — the first player in turn order from the current
player with an eligible melded 4-of-a-kind wins the interrupt (`oot`,
with `current_player` reassigned) unless that player is the natural next
player (`meld`, no reassignment); 4-of-a-kind strictly outranks the
4-colour chut, which only the current player may claim (`meld`), which in
turn outranks the identical 3-of-a-kind scan; the default is `meld` with
no reassignment. -/
theorem C7_out_of_turn_priority (players : List Player) (active_card : Card)
    (current : Nat) (hcur : current < players.length) :
    check_oot players active_card current
      = check_oot_spec players active_card current := by
  have hn : 0 < players.length := Nat.lt_of_le_of_lt (Nat.zero_le _) hcur
  simp only [check_oot, check_oot_spec]
  rw [scanTier_eq_find _ _ _ hn _ _ hcur, scanTier_eq_find _ _ _ hn _ _ hcur]
  rw [show rotation current players.length
      = (List.range players.length).map (fun k => (current + k) % players.length) from rfl]
  cases hfind : ((List.range players.length).map
      (fun k => (current + k) % players.length)).find?
      (eligAt (players.map (fun p => check_meld p active_card)) eligible4) with
  | some cp => rfl
  | none =>
    simp only []
    unfold eligAt
    cases hos : (players.map (fun p => check_meld p active_card)).getD current none with
    | some s => by_cases h4 : is_four_colour_set s = true <;> simp [h4]
    | none => rfl

/-- Witness for C7 with a single player holding an empty hand. -/
theorem C7_out_of_turn_priority_witness :
    0 < [Player.init red].length
      ∧ check_oot [Player.init red] (Card.init red kuin true) 0
          = check_oot_spec [Player.init red] (Card.init red kuin true) 0 :=
  ⟨by decide, C7_out_of_turn_priority [Player.init red] (Card.init red kuin true) 0 (by decide)⟩

end SSP

namespace SSP

theorem eph_melded_sets (p : Player) :
    (evaluate_player_hand p).melded_sets = p.melded_sets := rfl

theorem eph_melded_score (p : Player) :
    (evaluate_player_hand p).melded_score = p.melded_score := rfl

theorem eph_facedown_sets (p : Player) :
    (evaluate_player_hand p).facedown_sets = p.facedown_sets := rfl

theorem eph_facedown_score (p : Player) :
    (evaluate_player_hand p).facedown_score = p.facedown_score := rfl

theorem eph_hand_sets (p : Player) :
    (evaluate_player_hand p).hand_sets = (evaluate_hand p.hand).found_sets := rfl

theorem eph_hand_score (p : Player) :
    (evaluate_player_hand p).hand_score = (evaluate_hand p.hand).hand_score := rfl

theorem eph_lang_pai (p : Player) :
    (evaluate_player_hand p).lang_pai = (evaluate_hand p.hand).lang_pai := rfl

theorem eph_total_score (p : Player) :
    (evaluate_player_hand p).total_score
      = (evaluate_hand p.hand).hand_score + p.facedown_score + p.melded_score := rfl

theorem eph_hand (p : Player) :
    (evaluate_player_hand p).hand
      = (evaluate_hand p.hand).final.map (fun c => { c with locked := false }) := rfl

theorem final_clear_self (x : List Card) :
    (evaluate_hand x).final.map (fun c => { c with locked := false })
      = (evaluate_hand x).final := by
  simp only [evaluate_hand, List.map_map]
  rfl

theorem meldLoop_nil_melded :
    ∀ (fs : List CardSet) (acc : List Card × List CardSet × Int × Option CardSet),
      fs.filter (fun s => s.melded) = [] → meldLoop fs acc = acc := by
  intro fs
  induction fs with
  | nil => intro acc _; rfl
  | cons s rest ih =>
    intro acc hf
    rw [List.filter_cons] at hf
    by_cases hm : s.melded = true
    · rw [if_pos hm] at hf
      exact absurd hf (List.cons_ne_nil _ _)
    · rw [Bool.not_eq_true] at hm
      rw [if_neg (by rw [hm]; exact Bool.false_ne_true)] at hf
      obtain ⟨h, melds, msc, ms⟩ := acc
      rw [meldLoop]
      rw [if_neg (by rw [hm]; exact Bool.false_ne_true)]
      exact ih _ hf

theorem meldLoop_single (ms0 : CardSet) :
    ∀ (fs : List CardSet) (h : List Card) (melds : List CardSet) (msc : Int),
      fs.filter (fun s => s.melded) = [ms0] →
      meldLoop fs (h, melds, msc, none)
        = (removeCards ms0.cards h, melds ++ [ms0], msc + ms0.score, some ms0) := by
  intro fs
  induction fs with
  | nil => intro h melds msc hf; exact absurd hf.symm (List.cons_ne_nil _ _)
  | cons s rest ih =>
    intro h melds msc hf
    rw [List.filter_cons] at hf
    by_cases hm : s.melded = true
    · rw [if_pos hm] at hf
      have hs : s = ms0 := (List.cons.injEq _ _ _ _ ▸ hf).1
      have hrest : rest.filter (fun s => s.melded) = [] := (List.cons.injEq _ _ _ _ ▸ hf).2
      rw [meldLoop, if_pos hm, hs]
      exact meldLoop_nil_melded rest _ hrest
    · rw [Bool.not_eq_true] at hm
      rw [if_neg (by rw [hm]; exact Bool.false_ne_true)] at hf
      rw [meldLoop]
      rw [if_neg (by rw [hm]; exact Bool.false_ne_true)]
      exact ih h melds msc hf

theorem discard_card_none (r : Nat → Nat) (k : Nat) (p : Player)
    (hlp : p.lang_pai = []) (hcw : can_win p = false)
    (hnks : exists_nks p.hand_sets = false) :
    discard_card r k p = (none, p, k) := by
  unfold discard_card
  rw [hlp]
  simp [hcw, hnks]

end SSP

namespace SSP

/-- A hand holding a stale active flag: three green mah (one marked
active), white and yellow chut, and a green kuin.  Dealt through
`give_cards` so every derived field is consistent. -/
def staleHand : List Card :=
  [Card.init green mah false, Card.init green mah false, Card.init green mah true,
   Card.init white chut false, Card.init yellow chut false, Card.init green kuin false]

/-- The player used in the C6 counterexample. -/
def stalePlayer : Player := give_cards (Player.init red) staleHand

set_option maxRecDepth 400000 in
set_option maxHeartbeats 1000000 in
/-- C6 counterexample.  When the evaluation of hand+active finds TWO
melded sets (possible whenever a stale `active` flag survives in the
hand), `play_turn` appends both to the melded sets, but the rollback
removes only the last one: after the failed discard the player returns
`draw` yet keeps a melded set of score 1 and melded score 1, although
both were empty before the call — the state is not restored. -/
theorem C6_meld_rollback_counterexample :
    (play_turn (fun _ => 0) 0 stalePlayer (Card.init red chut true) false).map
        (fun t => (t.1, t.2.1, (t.2.2.1).melded_sets.map (fun s => s.score),
          (t.2.2.1).melded_score))
      = some (none, TurnRes.draw, [1], 1)
      ∧ stalePlayer.melded_sets = [] ∧ stalePlayer.melded_score = 0 := by
  constructor
  · decide
  · constructor
    · decide
    · decide

end SSP

namespace SSP

/-- C6 amended.  For every consistent player state (sorted unlocked hand,
derived fields matching their recomputation) and active card: if the meld
condition triggers and the evaluation finds exactly ONE melded set, and
the post-meld player cannot win, has no loose card and no breakable set
(so `discard_card` returns `None`), then `play_turn` rolls the meld back
completely — melded sets, melded score, hand, hand sets, and all scores
return to their pre-meld values — and returns the active card when
`drawn` is true, or `draw` when `drawn` is false.  (With two or more
melded sets — possible only through a stale `active` flag — only the last
is rolled back; see the counterexample.) -/
theorem C6_meld_rollback_restores_state (r : Nat → Nat) (k : Nat) (p : Player) (ac : Card) (drawn : Bool)
    (ms0 : CardSet) (p1 : Player)
    (hsort : sort_cards p.hand = p.hand)
    (hunl : ∀ c ∈ p.hand, c.locked = false)
    (hhs : p.hand_sets = (evaluate_hand p.hand).found_sets)
    (hhsc : p.hand_score = (evaluate_hand p.hand).hand_score)
    (hlp : p.lang_pai = (evaluate_hand p.hand).lang_pai)
    (htot : p.total_score = p.hand_score + p.facedown_score + p.melded_score)
    (hmc : (decide (p.hand_score < (evaluate_hand (p.hand ++ [ac])).hand_score)
        || can_tok p (evaluate_hand (p.hand ++ [ac])).hand_score
             (evaluate_hand (p.hand ++ [ac])).lang_pai) = true)
    (hone : (evaluate_hand (p.hand ++ [ac])).found_sets.filter (fun s => s.melded) = [ms0])
    (hp1 : p1 = evaluate_player_hand { p with
        hand := removeCards ms0.cards (evaluate_hand (p.hand ++ [ac])).final
        melded_sets := p.melded_sets ++ [ms0]
        melded_score := p.melded_score + ms0.score })
    (hnw : can_win p1 = false)
    (hlp1 : p1.lang_pai = [])
    (hnks : exists_nks p1.hand_sets = false) :
    ∃ p2 k2, play_turn r k p ac drawn
        = some (none, if drawn then TurnRes.card ac else TurnRes.draw, p2, k2)
      ∧ p2.melded_sets = p.melded_sets
      ∧ p2.melded_score = p.melded_score
      ∧ p2.hand = p.hand
      ∧ p2.hand_sets = p.hand_sets
      ∧ p2.hand_score = p.hand_score
      ∧ p2.lang_pai = p.lang_pai
      ∧ p2.total_score = p.total_score
      ∧ p2.facedown_sets = p.facedown_sets
      ∧ p2.facedown_score = p.facedown_score := by
  have hp1m : p1.melded_sets = p.melded_sets ++ [ms0] := by
    rw [hp1, eph_melded_sets]
  have hp1msc : p1.melded_score = p.melded_score + ms0.score := by
    rw [hp1, eph_melded_score]
  have hp1fd : p1.facedown_sets = p.facedown_sets := by
    rw [hp1, eph_facedown_sets]
  have hp1fsc : p1.facedown_score = p.facedown_score := by
    rw [hp1, eph_facedown_score]
  simp only [play_turn]
  rw [hmc, if_pos rfl]
  rw [meldLoop_single ms0 _ _ _ _ hone]
  simp only []
  rw [← hp1, hnw]
  simp only [Bool.false_eq_true, if_false]
  rw [discard_card_none r k p1 hlp1 hnw hnks]
  simp only []
  have hfields : ∀ q : Player,
      q = evaluate_player_hand { p1 with
          melded_sets := p1.melded_sets.dropLast
          melded_score := p1.melded_score - ms0.score
          hand := p.hand } →
      q.melded_sets = p.melded_sets
      ∧ q.melded_score = p.melded_score
      ∧ q.hand = p.hand
      ∧ q.hand_sets = p.hand_sets
      ∧ q.hand_score = p.hand_score
      ∧ q.lang_pai = p.lang_pai
      ∧ q.total_score = p.total_score
      ∧ q.facedown_sets = p.facedown_sets
      ∧ q.facedown_score = p.facedown_score := by
    intro q hq
    subst hq
    refine ⟨?_, ?_, ?_, ?_, ?_, ?_, ?_, ?_, ?_⟩
    · rw [eph_melded_sets]
      show p1.melded_sets.dropLast = p.melded_sets
      rw [hp1m]
      exact List.dropLast_concat
    · rw [eph_melded_score]
      show p1.melded_score - ms0.score = p.melded_score
      rw [hp1msc]
      omega
    · rw [eph_hand]
      show (evaluate_hand p.hand).final.map (fun c => { c with locked := false }) = p.hand
      rw [final_clear_self, final_eq_sort p.hand hunl, hsort]
    · rw [eph_hand_sets]
      exact hhs.symm
    · rw [eph_hand_score]
      exact hhsc.symm
    · rw [eph_lang_pai]
      exact hlp.symm
    · rw [eph_total_score]
      show (evaluate_hand p.hand).hand_score + p1.facedown_score
          + (p1.melded_score - ms0.score) = p.total_score
      rw [← hhsc, hp1fsc, hp1msc, htot]
      omega
    · rw [eph_facedown_sets]
      exact hp1fd
    · rw [eph_facedown_score]
      exact hp1fsc
  cases drawn
  · exact ⟨_, _, rfl, hfields _ rfl⟩
  · exact ⟨_, _, rfl, hfields _ rfl⟩

end SSP

namespace SSP

/-- The consistent single-meld player of the C6 witness. -/
def rollbackPlayer : Player := give_cards (Player.init red) [Card.init green kuin false]

/-- The active card of the C6 witness. -/
def rollbackAc : Card := Card.init red kuin true

/-- The single melded set of the C6 witness. -/
def rollbackMs : CardSet := mkSet [Card.init red kuin true]

/-- The post-meld player of the C6 witness. -/
def rollbackP1 : Player :=
  evaluate_player_hand { rollbackPlayer with
    hand := removeCards rollbackMs.cards
      (evaluate_hand (rollbackPlayer.hand ++ [rollbackAc])).final
    melded_sets := rollbackPlayer.melded_sets ++ [rollbackMs]
    melded_score := rollbackPlayer.melded_score + rollbackMs.score }

set_option maxRecDepth 400000 in
set_option maxHeartbeats 1000000 in
/-- Witness for C6: a player holding a single green kuin melds the active
red kuin, cannot discard, and the rollback restores everything. -/
theorem C6_meld_rollback_restores_state_witness :
    (sort_cards rollbackPlayer.hand = rollbackPlayer.hand)
      ∧ (∀ c ∈ rollbackPlayer.hand, c.locked = false)
      ∧ (rollbackPlayer.hand_sets = (evaluate_hand rollbackPlayer.hand).found_sets)
      ∧ (rollbackPlayer.hand_score = (evaluate_hand rollbackPlayer.hand).hand_score)
      ∧ (rollbackPlayer.lang_pai = (evaluate_hand rollbackPlayer.hand).lang_pai)
      ∧ (rollbackPlayer.total_score = rollbackPlayer.hand_score
          + rollbackPlayer.facedown_score + rollbackPlayer.melded_score)
      ∧ ((decide (rollbackPlayer.hand_score
            < (evaluate_hand (rollbackPlayer.hand ++ [rollbackAc])).hand_score)
          || can_tok rollbackPlayer
              (evaluate_hand (rollbackPlayer.hand ++ [rollbackAc])).hand_score
              (evaluate_hand (rollbackPlayer.hand ++ [rollbackAc])).lang_pai) = true)
      ∧ ((evaluate_hand (rollbackPlayer.hand ++ [rollbackAc])).found_sets.filter
            (fun s => s.melded) = [rollbackMs])
      ∧ (can_win rollbackP1 = false)
      ∧ (rollbackP1.lang_pai = [])
      ∧ (exists_nks rollbackP1.hand_sets = false)
      ∧ (∃ p2 k2, play_turn (fun _ => 0) 0 rollbackPlayer rollbackAc false
            = some (none, if false then TurnRes.card rollbackAc else TurnRes.draw, p2, k2)
          ∧ p2.melded_sets = rollbackPlayer.melded_sets
          ∧ p2.melded_score = rollbackPlayer.melded_score
          ∧ p2.hand = rollbackPlayer.hand
          ∧ p2.hand_sets = rollbackPlayer.hand_sets
          ∧ p2.hand_score = rollbackPlayer.hand_score
          ∧ p2.lang_pai = rollbackPlayer.lang_pai
          ∧ p2.total_score = rollbackPlayer.total_score
          ∧ p2.facedown_sets = rollbackPlayer.facedown_sets
          ∧ p2.facedown_score = rollbackPlayer.facedown_score) :=
  ⟨by decide, by decide, by decide, by decide, by decide, by decide, by decide, by decide,
    by decide, by decide, by decide,
    C6_meld_rollback_restores_state (fun _ => 0) 0 rollbackPlayer rollbackAc false
      rollbackMs rollbackP1 (by decide) (by decide) (by decide) (by decide) (by decide)
      (by decide) (by decide) (by decide) rfl (by decide) (by decide) (by decide)⟩

end SSP

namespace SSP

/-- The module-level game state of game.py (`deck`, `players`,
`current_player`, `active_card`, `discards`, `faceup_sets`, `turn_count`,
and the `enable_oot` switch set by `play_game`). -/
structure Game where
  deck : Deck
  players : List Player
  current_player : Nat
  active_card : Option Card
  discards : List Card
  faceup_sets : List CardSet
  turn_count : Nat
  enable_oot : Bool
deriving DecidableEq

/-- The common tail of `conduct_turn` once the player has produced a
discard card `c`: record a melded set face up, make `c` the active card,
bump the turn counter, run the out-of-turn check, and hand the turn on. -/
def finishTurn (oot_turn : Bool) (g : Game) (ms : Option CardSet) (c : Card)
    (k : Nat) : Option (String × Game × Nat) :=
  let g1 := match ms with
    | some s => { g with faceup_sets := g.faceup_sets ++ [s] }
    | none => g
  let g2 := { g1 with
    active_card := some c
    turn_count := g1.turn_count + 1 }
  let oot2 :=
    if ¬oot_turn ∧ g2.enable_oot = true then check_oot g2.players c g2.current_player
    else (meldS, g2.current_player)
  if oot2.1 = ootS then some (ootS, { g2 with current_player := oot2.2 }, k)
  else some (nextS,
    { g2 with current_player := (g2.current_player + 1) % g2.players.length }, k)

/-- `conduct_turn` of game.py.  Paths on which the Python raises
(`IndexError` on a bad player index, `AttributeError` on a missing active
card, the impossible string-valued active card) return `none`.  Note the
replenishment block appends every discard to the deck but never clears
`discards` — exactly as in the source. -/
def conduct_turn (shuf : List Card → List Card) (r : Nat → Nat) (k : Nat)
    (oot_turn : Bool) (g0 : Game) : Option (String × Game × Nat) :=
  let informed := g0.players.map (fun p => update_field_info p g0.discards g0.faceup_sets)
  let g := { g0 with players := informed }
  let n := g.players.length
  match g.players.get? g.current_player with
  | none => none
  | some cp =>
    if cp.collection.length = 21 ∧ g.active_card = none then
      let d := discard_card r k cp
      match d.1 with
      | none => none
      | some dc =>
        some (nextS,
          { g with
            players := g.players.set g.current_player d.2.1
            active_card := some { dc with active := true }
            current_player := (g.current_player + 1) % n }, d.2.2)
    else
      if g.deck.cards.length = 0 ∧ g.discards.length = 0 then some (exitS, g, k)
      else
        let g1 := if g.deck.cards.length = 0 then
            { g with deck := { g.deck with cards := shuf (g.deck.cards ++ g.discards) } }
          else g
        let acg : Option (Card × Game) :=
          match g1.active_card with
          | some ac => some (ac, g1)
          | none =>
            match draw_active_card g1.deck with
            | (some ac, d2) => some (ac, { g1 with deck := d2, active_card := some ac })
            | (none, _) => none
        match acg with
        | none => none
        | some (ac, g2) =>
          match play_turn r k cp ac oot_turn with
          | none => none
          | some (ms, x, p1, k1) =>
            let g3 := { g2 with players := g2.players.set g2.current_player p1 }
            match x with
            | TurnRes.kaeu => some (winS, g3, k1)
            | TurnRes.card c => finishTurn oot_turn g3 ms c k1
            | TurnRes.draw =>
              let g4 := { g3 with discards := g3.discards ++ [ac] }
              match draw_active_card g4.deck with
              | (none, _) => none
              | (some ac2, d2) =>
                let g5 := { g4 with deck := d2, active_card := some ac2 }
                let oot1 :=
                  if ¬oot_turn ∧ g5.enable_oot = true then
                    check_oot g5.players ac2 g5.current_player
                  else (meldS, g5.current_player)
                if oot1.1 = ootS then
                  some (ootS, { g5 with current_player := oot1.2 }, k1)
                else
                  match play_turn r k1 p1 ac2 true with
                  | none => none
                  | some (ms2, x2, p2, k2) =>
                    let g6 := { g5 with players := g5.players.set g5.current_player p2 }
                    match x2 with
                    | TurnRes.kaeu => some (winS, g6, k2)
                    | TurnRes.card c2 => finishTurn oot_turn g6 ms2 c2 k2
                    | TurnRes.draw => none

/-- `setup_game` of game.py: build the deck for the player list, pick a
random first player, deal 20 cards to everyone and a 21st to the first
player.  A short deck (deal returns `None`) or an empty player list
crashes the Python and returns `none`. -/
def setup_game (shuf : List Card → List Card) (r : Nat → Nat) (k : Nat)
    (agents : List Player) (enable_oot : Bool) : Option (Game × Nat) :=
  let deck := construct_deck shuf agents.length
  if agents.length = 0 then none
  else
    let fp := r k % agents.length
    let deal := agents.foldl (fun acc p =>
        match acc with
        | none => none
        | some (ps, d) =>
          match draw_cards d 20 with
          | (some cs, d2) => some (ps ++ [give_cards p cs], d2)
          | (none, _) => none) (some ([], deck))
    match deal with
    | none => none
    | some (ps, d) =>
      match draw_cards d 1 with
      | (some cs, d2) =>
        match ps.get? fp with
        | none => none
        | some pfp =>
          some ({ deck := d2
                  players := ps.set fp (give_cards pfp cs)
                  current_player := fp
                  active_card := none
                  discards := []
                  faceup_sets := []
                  turn_count := 0
                  enable_oot := enable_oot }, k + 1)
      | (none, _) => none

end SSP

namespace SSP

/-- Card identity: flags mutate during play, so conservation is stated
over (colour, suit) pairs. -/
def cardId (c : Card) : String × String := (c.colour, c.suit)

/-- All cards a player owns: hand, facedown sets, melded sets (the zones
named by the conservation property; `collection` is a derived view). -/
def playerCards (p : Player) : List Card :=
  p.hand ++ (p.facedown_sets.map (fun s => s.cards)).flatten
    ++ (p.melded_sets.map (fun s => s.cards)).flatten

/-- The multiset of all cards across deck, discard pile, table-active
card, and every player's hand, facedown and melded sets. -/
def zoneMultiset (g : Game) : Multiset (String × String) :=
  Multiset.ofList ((g.deck.cards ++ g.discards
    ++ (g.active_card.map (fun c => [c])).getD []
    ++ (g.players.map playerCards).flatten).map cardId)

/-- A consistent one-player state: the player was dealt a single green
kuin through `give_cards`. -/
def conservPlayer : Player := give_cards (Player.init red) [Card.init green kuin false]

/-- A game state reached when the deck has just run out: empty deck, one
discarded white pau, a red kuin on the table as the active card.  This is
the situation the replenishment branch of `conduct_turn` exists for. -/
def conservGame : Game :=
  { deck := Deck.mk 1 []
    players := [conservPlayer]
    current_player := 0
    active_card := some (Card.init red kuin true)
    discards := [Card.init white pau false]
    faceup_sets := []
    turn_count := 0
    enable_oot := false }

/-- The same exhausted-deck state with a yellow tse as the lone discard. -/
def replenishGame : Game :=
  { conservGame with discards := [Card.init yellow tse false] }

/-- The same state with deck and discard pile both empty. -/
def exhaustGame : Game :=
  { conservGame with discards := [] }

set_option maxRecDepth 400000 in
set_option maxHeartbeats 1000000 in
/-- C1 (code bug).  Evaluating `conduct_turn` at a state with an empty
deck and a non-empty discard pile: the step completes normally (`next`)
but the multiset of all cards across deck, discards, hands,
facedown/melded sets and the table-active card is NOT preserved — the
replenishment loop `for c in discards: deck.cards.append(c)` never clears
`discards`, so the reclaimed card is counted in two zones at once.  Card
conservation fails on every game in which the deck drains. -/
theorem C1_card_conservation_violated :
    (conduct_turn id (fun _ => 0) 0 false conservGame).map
        (fun t => (t.1, zoneMultiset t.2.1 == zoneMultiset conservGame))
      = some (nextS, false) := by
  decide

set_option maxRecDepth 400000 in
set_option maxHeartbeats 1000000 in
/-- C2 (code bug).  When `conduct_turn` finds the deck empty and the
discard pile non-empty, the discards become the new deck but the pile is
NOT emptied: after the step the yellow tse is still in `discards` while
its reclaimed copy is simultaneously the table-active card, so the total
count across deck and discards is not preserved.  The `exit` return does
occur exactly when deck and discards are both empty (second conjunct). -/
theorem C2_replenishment_leaves_discards :
    (conduct_turn id (fun _ => 0) 0 false replenishGame).map
        (fun t => (t.1, t.2.1.discards.map cardId, t.2.1.active_card.map cardId))
      = some (nextS, [(yellow, tse), (red, kuin)], some (yellow, tse))
      ∧ (conduct_turn id (fun _ => 0) 0 false exhaustGame).map (fun t => t.1)
          = some exitS := by
  constructor
  · decide
  · decide

end SSP
